import Mathlib

/-!
Verification development for the skelly-audio-tools vocal-separation engine.

The audio pipeline (src/vocal_model/separator.py and
src/vocal_model/separator_onnx.py) operates on float32 buffers; we embed the
sample arithmetic in ℚ, which models the real-number content of the float
computation exactly.  All time-axis operations of the chunker act identically
and independently on each channel, so a waveform is embedded as a single
channel `List ℚ`.  Code paths that raise a Python exception are embedded as
`Option`/`Except` values (`none`/`.error` = the call raises).  IEEE division
0/0 produces NaN in the source; in ℚ it evaluates to 0 — in either semantics
the quotient differs from any finite nonzero expected sample, which is the
only way the 0/0 case is used below.
-/

/-- `torch.linspace a b n` / `np.linspace a b n`, element `j`:
`a + (b - a) * j / (n - 1)` for `n ≥ 2`; a one-point linspace is `[a]`. -/
def linspaceQ (a b : ℚ) (n : ℕ) (j : ℕ) : ℚ :=
  if n ≤ 1 then a else a + (b - a) * j / ((n : ℚ) - 1)

/-- The windowing array of `_get_windowing_array(window_size, fade_size)`
(identical in separator.py lines 57-64 and separator_onnx.py lines 114-121):
`window = ones(size)`, then `window[-fade:] *= linspace 1 0 fade` and
`window[:fade] *= linspace 0 1 fade`.  The two in-place multiplications
commute, so the value at `j` is the product of the two factors below. -/
def windowQ (size fade : ℕ) (j : ℕ) : ℚ :=
  (if j < fade then linspaceQ 0 1 fade j else 1) *
    (if size - fade ≤ j then linspaceQ 1 0 fade (j - (size - fade)) else 1)

/-- `_get_windowing_array` with its shape constraint: the in-place products
`window[-fade:] *= fadeout` and `window[:fade] *= fadein` require the slices
to have length `fade`, i.e. `1 ≤ fade ≤ size` (for `fade = 0` the slice
`window[-0:]` is the whole array and broadcasting against the empty
`fadeout` raises; the degenerate `size = 0, fade = 0` case multiplies two
empty arrays and succeeds). -/
def getWindowingArray (size fade : ℕ) : Option (ℕ → ℚ) :=
  if (1 ≤ fade ∧ fade ≤ size) ∨ (fade = 0 ∧ size = 0) then
    some (windowQ size fade)
  else none

/-- The claim C9 sentence "whose first fade_size samples ramp linearly from 0
to 1, whose last fade_size samples ramp linearly from 1 to 0, and whose
remaining samples are all exactly 1", written over an arbitrary sample
function; ramps are stated with cleared denominators. -/
def WindowSpec (size fade : ℕ) (w : ℕ → ℚ) : Prop :=
  (∀ j, j < fade → ((fade : ℚ) - 1) * w j = j) ∧
    (∀ j, fade ≤ j → j < size - fade → w j = 1) ∧
      (∀ j, j < fade → ((fade : ℚ) - 1) * w (size - fade + j) = (fade : ℚ) - 1 - j)

theorem linspaceQ_zero_one (f j : ℕ) (hf : 2 ≤ f) :
    linspaceQ 0 1 f j = (j : ℚ) / ((f : ℚ) - 1) := by
  unfold linspaceQ
  rw [if_neg (by omega)]
  ring

theorem linspaceQ_one_zero (f j : ℕ) (hf : 2 ≤ f) :
    linspaceQ 1 0 f j = 1 - (j : ℚ) / ((f : ℚ) - 1) := by
  unfold linspaceQ
  rw [if_neg (by omega)]
  ring

theorem windowQ_spec (size fade : ℕ) (h1 : 1 ≤ fade) (h2 : 2 * fade < size) :
    WindowSpec size fade (windowQ size fade) := by
  have hlt : fade < size - fade := by omega
  refine ⟨?_, ?_, ?_⟩
  · intro j hj
    have hj2 : ¬ (size - fade ≤ j) := by omega
    unfold windowQ
    rw [if_pos hj, if_neg hj2, mul_one]
    rcases Nat.lt_or_ge fade 2 with hf | hf
    · have hf1 : fade = 1 := by omega
      subst hf1
      have hj0 : j = 0 := by omega
      subst hj0
      simp [linspaceQ]
    · rw [linspaceQ_zero_one fade j hf]
      have hne : ((fade : ℚ) - 1) ≠ 0 := by
        have : (2 : ℚ) ≤ (fade : ℚ) := by exact_mod_cast hf
        linarith
      field_simp
  · intro j hj1 hj2
    unfold windowQ
    rw [if_neg (by omega), if_neg (by omega), mul_one]
  · intro j hj
    have hidx : ¬ (size - fade + j < fade) := by omega
    have hge : size - fade ≤ size - fade + j := by omega
    have hsub : size - fade + j - (size - fade) = j := by omega
    unfold windowQ
    rw [if_neg hidx, if_pos hge, hsub, one_mul]
    rcases Nat.lt_or_ge fade 2 with hf | hf
    · have hf1 : fade = 1 := by omega
      subst hf1
      have hj0 : j = 0 := by omega
      subst hj0
      simp [linspaceQ]
    · rw [linspaceQ_one_zero fade j hf]
      have hne : ((fade : ℚ) - 1) ≠ 0 := by
        have : (2 : ℚ) ≤ (fade : ℚ) := by exact_mod_cast hf
        linarith
      field_simp

/-- C9 (corrected): for every `size` and every `fade_size` with
`1 ≤ fade_size` and `fade_size < size / 2`, the windowing function returns a
vector of length `size` (a total sample function over `[0, size)`) whose
first `fade_size` samples ramp linearly from 0 to 1, whose last `fade_size`
samples ramp linearly from 1 to 0, and whose remaining samples are exactly 1.
(The original claim also covered `fade_size = 0`, where the construction
raises a broadcasting error instead of returning a vector.) -/
theorem c9_window_shape (size fade : ℕ) (h1 : 1 ≤ fade) (h2 : 2 * fade < size) :
    getWindowingArray size fade = some (windowQ size fade) ∧
      WindowSpec size fade (windowQ size fade) := by
  constructor
  · unfold getWindowingArray
    rw [if_pos (Or.inl ⟨h1, by omega⟩)]
  · exact windowQ_spec size fade h1 h2

theorem c9_window_shape_witness :
    1 ≤ 3 ∧ 2 * 3 < 10 ∧
      (getWindowingArray 10 3 = some (windowQ 10 3) ∧
        WindowSpec 10 3 (windowQ 10 3)) :=
  ⟨by decide, by decide, c9_window_shape 10 3 (by decide) (by decide)⟩

/-- C9 counterexample: `fade_size = 0` satisfies `fade_size < size / 2` for
`size = 5`, but the construction raises (the slice `window[-0:]` is the whole
length-5 array and the in-place multiplication by the empty `fadeout`
broadcasts incompatible shapes), so no vector of length `size` with the
claimed ramps is returned. -/
theorem c9_counterexample :
    getWindowingArray 5 0 = none ∧ (0 : ℚ) < 5 / 2 := by
  constructor
  · unfold getWindowingArray
    rw [if_neg (by decide)]
  · norm_num

/-!
Overlap-add chunker (`separate` in separator.py lines 66-119 and
separator_onnx.py lines 123-187).  Derived parameters: `step = C // N`,
`fade_size = C // 10`, `border = C - step`.
-/

/-- `step = C // N` (integer division; in Python `C // 0` raises, and
`range(0, L, 0)` raises for `step = 0` — both are mapped to `none` by
`separateWith` below). -/
def stepOf (C N : ℕ) : ℕ := C / N

/-- `fade_size = C // 10`. -/
def fadeOf (C : ℕ) : ℕ := C / 10

/-- `border = C - step`. -/
def borderOf (C N : ℕ) : ℕ := C - stepOf C N

/-- Number of loop iterations of `for i in range(0, L, step)`:
the chunk start offsets are `k * step` for `k < numChunks C N L`. -/
def numChunks (C N L : ℕ) : ℕ := (L + stepOf C N - 1) / stepOf C N

/-- `length = part.shape[-1]` for the chunk starting at `k * step` in a
buffer of length `L`: the slice `mix[:, i : i + C]` has `min C (L - i)`
samples. -/
def chunkLen (C N L k : ℕ) : ℕ := min C (L - k * stepOf C N)

/-- Position `p` lies in the accumulation slice `[i, i + length)` of the
chunk starting at `i = k * step` (the slice written by
`result[:, i : i + length] += ...` and `counter[:, i : i + length] += ...`). -/
def touchedBy (C N L k p : ℕ) : Prop :=
  k * stepOf C N ≤ p ∧ p < k * stepOf C N + chunkLen C N L k

instance (C N L k p : ℕ) : Decidable (touchedBy C N L k p) := by
  unfold touchedBy; infer_instance

/-- The `counter` buffer after the loop, at position `p`: each chunk adds
`windowing_array[:length]` into `counter[:, i : i + length]`. -/
def counterQ (C N L : ℕ) (p : ℕ) : ℚ :=
  ∑ k ∈ Finset.range (numChunks C N L),
    if touchedBy C N L k p then windowQ C (fadeOf C) (p - k * stepOf C N) else 0

/-- The `result` buffer after the loop, at position `p`, given the estimator
output `est k` for the chunk starting at `k * step`: each chunk adds
`processed_chunk[:, :length] * windowing_array[:length]` into
`result[:, i : i + length]`. -/
def resultQ (C N L : ℕ) (est : ℕ → List ℚ) (p : ℕ) : ℚ :=
  ∑ k ∈ Finset.range (numChunks C N L),
    if touchedBy C N L k p then
      (est k).getD (p - k * stepOf C N) 0 * windowQ C (fadeOf C) (p - k * stepOf C N)
    else 0

/-- `np.pad(mix, ((0,0),(border,border)), mode='reflect')` /
`F.pad(mix, (border, border), mode='reflect')`: reflect padding (boundary
sample excluded) on both ends; element `k < b` of the left pad is
`xs[b - k]` and element `k < b` of the right pad is `xs[len - 2 - k]`.
Only evaluated under the guard `len > 2 * border`, where `b ≤ len - 1` and
the reflection indices are in range. -/
def reflectPadBoth (xs : List ℚ) (b : ℕ) : List ℚ :=
  ((List.range b).map fun k => xs.getD (b - k) 0) ++
    (xs ++ (List.range b).map fun k => xs.getD (xs.length - 2 - k) 0)

/-- Tail padding of a short chunk in separator.py lines 103-104:
`F.pad(part, (0, C - length), mode='reflect')` unconditionally.  Torch
reflect padding requires the pad amount to be smaller than the input length
and raises `RuntimeError` otherwise (`none`). -/
def padTailTorch (C : ℕ) (xs : List ℚ) : Option (List ℚ) :=
  if xs.length < C then
    if C - xs.length < xs.length then
      some (xs ++ (List.range (C - xs.length)).map fun k => xs.getD (xs.length - 2 - k) 0)
    else none
  else some xs

/-- Tail padding of a short chunk in separator_onnx.py lines 160-165:
reflect-pad when `length > pad_amount`, otherwise zero-pad
(`mode='constant', constant_values=0`); never raises. -/
def padTailONNX (C : ℕ) (xs : List ℚ) : Option (List ℚ) :=
  if xs.length < C then
    if C - xs.length < xs.length then
      some (xs ++ (List.range (C - xs.length)).map fun k => xs.getD (xs.length - 2 - k) 0)
    else some (xs ++ List.replicate (C - xs.length) 0)
  else some xs

/-- The shared overlap-add pipeline of `separate`, parameterized by the
tail-padding strategy `padTail` (the only point where separator.py and
separator_onnx.py differ).  Steps, mirroring the source order:
border reflect-padding under the guard `len > 2 * border and border > 0`;
windowing-array construction; the chunk loop accumulating `result` and
`counter`; elementwise `result / counter`; stripping `border` samples from
both ends when border padding was applied.  `none` models a raised
exception (zero `step`, windowing-array shape error, or a failing tail pad).
The estimator `infer` receives the tail-padded chunk, exactly as
`self.model(part)` / `session.run` receive it.  The stripping guard
re-states the padding guard: the PyTorch source re-tests the (padded) mix
and the ONNX source stores the boolean, but padding adds `2 * border`
samples, so the re-test has the same truth value and both sources strip
exactly when they padded. -/
def separateWith (padTail : ℕ → List ℚ → Option (List ℚ)) (C N : ℕ)
    (mix : List ℚ) (infer : List ℚ → List ℚ) : Option (List ℚ) :=
  if stepOf C N = 0 then none
  else if (getWindowingArray C (fadeOf C)).isSome = true then
    let border := borderOf C N
    let mix' :=
      if 2 * border < mix.length ∧ 0 < border then reflectPadBoth mix border else mix
    let L := mix'.length
    let part : ℕ → List ℚ := fun k => (mix'.drop (k * stepOf C N)).take C
    if (List.range (numChunks C N L)).all (fun k => (padTail C (part k)).isSome) = true then
      let est : ℕ → List ℚ := fun k => infer ((padTail C (part k)).getD [])
      let out := (List.range L).map fun p => resultQ C N L est p / counterQ C N L p
      some
        (if 2 * border < mix.length ∧ 0 < border then
          (out.drop border).take (L - 2 * border)
        else out)
    else none
  else none

/-- `VocalSeparator.separate` (separator.py lines 66-119): the PyTorch
overlap-add pipeline, reflect-only tail padding. -/
def torchSeparate (C N : ℕ) (mix : List ℚ) (infer : List ℚ → List ℚ) :
    Option (List ℚ) :=
  separateWith padTailTorch C N mix infer

/-- `ONNXVocalSeparator.separate` (separator_onnx.py lines 123-187): the
ONNX overlap-add pipeline, reflect-or-zero tail padding. -/
def onnxSeparate (C N : ℕ) (mix : List ℚ) (infer : List ℚ → List ℚ) :
    Option (List ℚ) :=
  separateWith padTailONNX C N mix infer


/-! Derived-parameter arithmetic and window sign facts used by the
overlap-add proofs. -/

theorem step_pos (C N : ℕ) (hN1 : 1 ≤ N) (hNC : N ≤ C) : 1 ≤ stepOf C N := by
  unfold stepOf
  exact (Nat.one_le_div_iff (by omega)).mpr hNC

theorem two_step_le (C N : ℕ) (hN : 2 ≤ N) : 2 * stepOf C N ≤ C := by
  unfold stepOf
  have h1 : C / N ≤ C / 2 := Nat.div_le_div_left hN (by omega)
  have h2 : C / 2 * 2 ≤ C := Nat.div_mul_le_self C 2
  omega

theorem fade_pos (C : ℕ) (hC : 10 ≤ C) : 1 ≤ fadeOf C := by
  unfold fadeOf; omega

theorem fade_le (C : ℕ) : fadeOf C ≤ C := by
  unfold fadeOf; omega

theorem windowQ_nonneg (C f j : ℕ) (hj : j < C) (hfC : f ≤ C) : 0 ≤ windowQ C f j := by
  unfold windowQ
  apply mul_nonneg
  · split
    · rename_i hin
      unfold linspaceQ
      split
      · norm_num
      · rename_i hf2'
        have hf2 : 2 ≤ f := by omega
        have hfQ : (0 : ℚ) < (f : ℚ) - 1 := by
          have : (2 : ℚ) ≤ (f : ℚ) := by exact_mod_cast hf2
          linarith
        have hjQ : (0 : ℚ) ≤ (j : ℚ) := by positivity
        have e : (0 : ℚ) + (1 - 0) * j / ((f : ℚ) - 1) = j / ((f : ℚ) - 1) := by ring
        rw [e]
        positivity
    · norm_num
  · split
    · rename_i hge
      unfold linspaceQ
      split
      · norm_num
      · rename_i hf2'
        have hf2 : 2 ≤ f := by omega
        have hfQ : (0 : ℚ) < (f : ℚ) - 1 := by
          have : (2 : ℚ) ≤ (f : ℚ) := by exact_mod_cast hf2
          linarith
        have hidx : j - (C - f) ≤ f - 1 := by omega
        have hidxQ : ((j - (C - f) : ℕ) : ℚ) ≤ (f : ℚ) - 1 :=
          calc ((j - (C - f) : ℕ) : ℚ) ≤ ((f - 1 : ℕ) : ℚ) := Nat.cast_le.mpr hidx
            _ = (f : ℚ) - 1 := by
              rw [Nat.cast_sub (by omega), Nat.cast_one]
        have hfrac : ((j - (C - f) : ℕ) : ℚ) / ((f : ℚ) - 1) ≤ 1 :=
          (div_le_one hfQ).mpr hidxQ
        have e : (1 : ℚ) + (0 - 1) * ((j - (C - f) : ℕ) : ℚ) / ((f : ℚ) - 1) =
            1 - ((j - (C - f) : ℕ) : ℚ) / ((f : ℚ) - 1) := by ring
        rw [e]
        linarith
    · norm_num

theorem windowQ_pos (C j : ℕ) (hC : 10 ≤ C) (hj1 : 1 ≤ j) (hj2 : 2 * j ≤ C) :
    0 < windowQ C (fadeOf C) j := by
  have hnotout : ¬ (C - fadeOf C ≤ j) := by unfold fadeOf; omega
  unfold windowQ
  rw [if_neg hnotout, mul_one]
  split
  · rename_i hin
    have hf2 : 2 ≤ fadeOf C := by omega
    unfold linspaceQ
    rw [if_neg (by omega)]
    have hfQ : (0 : ℚ) < (fadeOf C : ℚ) - 1 := by
      have : (2 : ℚ) ≤ (fadeOf C : ℚ) := by exact_mod_cast hf2
      linarith
    have hjQ : (0 : ℚ) < (j : ℚ) := by exact_mod_cast hj1
    have e : (0 : ℚ) + (1 - 0) * j / ((fadeOf C : ℚ) - 1) = j / ((fadeOf C : ℚ) - 1) := by
      ring
    rw [e]
    positivity
  · norm_num

theorem counterQ_pos (C N L p : ℕ) (hC : 10 ≤ C) (hN : 2 ≤ N) (hNC : N ≤ C)
    (hp : 1 ≤ p) (hpL : p < L) : 0 < counterQ C N L p := by
  have hs1 : 1 ≤ stepOf C N := step_pos C N (by omega) hNC
  have hs2 : 2 * stepOf C N ≤ C := two_step_le C N hN
  obtain ⟨j, hj1, hjs, hjp, hdvd⟩ :
      ∃ j, 1 ≤ j ∧ j ≤ stepOf C N ∧ j ≤ p ∧ stepOf C N ∣ (p - j) := by
    rcases Nat.eq_zero_or_pos (p % stepOf C N) with h0 | h1
    · refine ⟨stepOf C N, hs1, le_refl _, ?_, ?_⟩
      · exact Nat.le_of_dvd (by omega) (Nat.dvd_of_mod_eq_zero h0)
      · exact Nat.dvd_sub' (Nat.dvd_of_mod_eq_zero h0) dvd_rfl
    · refine ⟨p % stepOf C N, h1, le_of_lt (Nat.mod_lt p (by omega)), Nat.mod_le p _, ?_⟩
      have hdm := Nat.div_add_mod p (stepOf C N)
      exact ⟨p / stepOf C N, by omega⟩
  have hks : p - j = p - j := rfl
  have hkmul : ((p - j) / stepOf C N) * stepOf C N = p - j := Nat.div_mul_cancel hdvd
  have hjC : j < C := by omega
  have hknc : (p - j) / stepOf C N < numChunks C N L := by
    have hnc : numChunks C N L = (L - 1) / stepOf C N + 1 := by
      unfold numChunks
      have e : L + stepOf C N - 1 = (L - 1) + stepOf C N := by omega
      rw [e, Nat.add_div_right _ (by omega)]
    rw [hnc]
    have hkle : (p - j) / stepOf C N ≤ (L - 1) / stepOf C N := by
      rw [Nat.le_div_iff_mul_le (by omega), hkmul]
      omega
    omega
  have htouch : touchedBy C N L ((p - j) / stepOf C N) p := by
    unfold touchedBy chunkLen
    rw [hkmul]
    constructor
    · omega
    · omega
  unfold counterQ
  apply Finset.sum_pos'
  · intro k' hk'
    split
    · rename_i ht
      apply windowQ_nonneg
      · unfold touchedBy chunkLen at ht
        omega
      · exact fade_le C
    · exact le_refl 0
  · refine ⟨(p - j) / stepOf C N, Finset.mem_range.mpr hknc, ?_⟩
    rw [if_pos htouch, hkmul]
    have e : p - (p - j) = j := by omega
    rw [e]
    exact windowQ_pos C j hC hj1 (by omega)

theorem padTailONNX_isSome (C : ℕ) (xs : List ℚ) : (padTailONNX C xs).isSome = true := by
  unfold padTailONNX
  split
  · split <;> rfl
  · rfl

theorem padTailONNX_getD (C : ℕ) (xs : List ℚ) (j : ℕ) (hj : j < xs.length) :
    ((padTailONNX C xs).getD []).getD j 0 = xs.getD j 0 := by
  unfold padTailONNX
  split
  · split
    · rw [Option.getD_some]
      exact List.getD_append _ _ _ _ hj
    · rw [Option.getD_some]
      exact List.getD_append _ _ _ _ hj
  · rw [Option.getD_some]

theorem slice_getD (l : List ℚ) (i C j : ℕ) (hj : j < min C (l.length - i)) :
    ((l.drop i).take C).getD j 0 = l.getD (i + j) 0 := by
  have h1 : j < ((l.drop i).take C).length := by
    simp [List.length_take, List.length_drop]
    omega
  have h2 : i + j < l.length := by omega
  rw [List.getD_eq_getElem _ _ h1, List.getD_eq_getElem _ _ h2]
  rw [List.getElem_take, List.getElem_drop]

theorem slice_length (l : List ℚ) (i C : ℕ) :
    ((l.drop i).take C).length = min C (l.length - i) := by
  simp [List.length_take, List.length_drop]

theorem reflectPadBoth_length (xs : List ℚ) (b : ℕ) :
    (reflectPadBoth xs b).length = xs.length + 2 * b := by
  unfold reflectPadBoth
  simp [List.length_append]
  omega

theorem reflectPadBoth_getD_mid (xs : List ℚ) (b t : ℕ) (ht : t < xs.length) :
    (reflectPadBoth xs b).getD (b + t) 0 = xs.getD t 0 := by
  unfold reflectPadBoth
  have hA : ((List.range b).map fun k => xs.getD (b - k) 0).length = b := by simp
  rw [List.getD_append_right _ _ _ _ (by rw [hA]; omega), hA]
  have e : b + t - b = t := by omega
  rw [e]
  exact List.getD_append _ _ _ _ ht

theorem resultQ_eq_mul_counterQ (C N L : ℕ) (est : ℕ → List ℚ) (v : ℚ) (p : ℕ)
    (h : ∀ k, k < numChunks C N L → touchedBy C N L k p →
      (est k).getD (p - k * stepOf C N) 0 = v) :
    resultQ C N L est p = v * counterQ C N L p := by
  unfold resultQ counterQ
  rw [Finset.mul_sum]
  refine Finset.sum_congr rfl ?_
  intro k hk
  split
  · rename_i ht
    rw [h k (Finset.mem_range.mp hk) ht]
  · rw [mul_zero]

theorem allONNXPadsSome (C s n : ℕ) (l : List ℚ) :
    (List.range n).all (fun k => (padTailONNX C ((l.drop (k * s)).take C)).isSome) = true := by
  rw [List.all_eq_true]
  intro k hk
  exact padTailONNX_isSome C _

theorem onnx_identity_pixel (C N : ℕ) (l : List ℚ) (p : ℕ)
    (hC : 10 ≤ C) (hN : 2 ≤ N) (hNC : N ≤ C) (hp1 : 1 ≤ p) (hpL : p < l.length) :
    resultQ C N l.length
        (fun k => (padTailONNX C ((l.drop (k * stepOf C N)).take C)).getD []) p /
      counterQ C N l.length p = l.getD p 0 := by
  have hpos := counterQ_pos C N l.length p hC hN hNC hp1 hpL
  have hres : resultQ C N l.length
      (fun k => (padTailONNX C ((l.drop (k * stepOf C N)).take C)).getD []) p =
      l.getD p 0 * counterQ C N l.length p := by
    apply resultQ_eq_mul_counterQ
    intro k hk ht
    have htc := ht
    unfold touchedBy chunkLen at htc
    have hlt : p - k * stepOf C N < ((l.drop (k * stepOf C N)).take C).length := by
      rw [slice_length]
      omega
    rw [padTailONNX_getD _ _ _ hlt]
    rw [slice_getD _ _ _ _ (by rw [slice_length] at hlt; exact hlt)]
    congr 1
    omega
  rw [hres, mul_div_cancel_right₀ _ (ne_of_gt hpos)]

/-- C1 (corrected): with identity inference, the ONNX overlap-add pipeline
(pad, chunk, window, accumulate, normalize by counter, strip border) returns
the original waveform exactly — provided the border padding is actually
applied, i.e. `len(waveform) > 2 * border` with `border > 0` (here
`2 ≤ N ≤ C` and `10 ≤ C` so that `step ≥ 1`, `border ≥ 1` and the fade is
nonempty).  Without border padding, sample 0 of the output is `0 / 0`
(`window[0] = 0` is the only contribution, see `c1_counterexample`), and the
PyTorch pipeline raises on tail padding (see `c3_torch_tail_pad_raises`), so
the original unconditional claim fails. -/
theorem c1_identity_padded (C N : ℕ) (mix : List ℚ) (hC : 10 ≤ C) (hN : 2 ≤ N)
    (hNC : N ≤ C) (hlen : 2 * borderOf C N < mix.length) :
    onnxSeparate C N mix (fun xs => xs) = some mix := by
  have hs1 : 1 ≤ stepOf C N := step_pos C N (by omega) hNC
  have hs2 : 2 * stepOf C N ≤ C := two_step_le C N hN
  have hb1 : 1 ≤ borderOf C N := by unfold borderOf; omega
  have hbs : stepOf C N ≤ borderOf C N := by unfold borderOf; omega
  have hwin : (getWindowingArray C (fadeOf C)).isSome = true := by
    unfold getWindowingArray
    rw [if_pos (Or.inl ⟨fade_pos C hC, fade_le C⟩)]
    rfl
  have hpadCond : 2 * borderOf C N < mix.length ∧ 0 < borderOf C N := ⟨hlen, by omega⟩
  have hL : (reflectPadBoth mix (borderOf C N)).length = mix.length + 2 * borderOf C N :=
    reflectPadBoth_length mix (borderOf C N)
  unfold onnxSeparate separateWith
  rw [if_neg (by omega), if_pos hwin]
  simp only [if_pos hpadCond, allONNXPadsSome, if_true]
  apply congrArg some
  apply List.ext_getElem
  · simp [List.length_take, List.length_drop, hL]
    omega
  · intro t h₁ h₂
    rw [List.getElem_take, List.getElem_drop]
    have hbt : borderOf C N + t < (reflectPadBoth mix (borderOf C N)).length := by
      rw [hL]; omega
    simp only [List.getElem_map, List.getElem_range]
    rw [onnx_identity_pixel C N (reflectPadBoth mix (borderOf C N)) (borderOf C N + t)
      hC hN hNC (by omega) hbt]
    rw [reflectPadBoth_getD_mid mix (borderOf C N) t h₂]
    exact List.getD_eq_getElem mix 0 h₂

theorem c1_identity_padded_witness :
    10 ≤ 10 ∧ 2 ≤ 2 ∧ 2 ≤ 10 ∧ 2 * borderOf 10 2 < (List.replicate 11 (1 : ℚ)).length ∧
      onnxSeparate 10 2 (List.replicate 11 1) (fun xs => xs) =
        some (List.replicate 11 1) :=
  ⟨by decide, by decide, by decide, by decide,
    c1_identity_padded 10 2 (List.replicate 11 1) (by decide) (by decide) (by decide)
      (by decide)⟩

/-- C1 counterexample: for `C = 10`, `N = 2` and a length-10 all-ones
waveform the border-padding guard `len > 2 * border` fails (`10 ≤ 10`), the
buffer is processed unpadded, and the output is `[0, 1, …, 1]`, not the
original `[1, …, 1]`: sample 0 is `result[0] / counter[0] = 0 / 0` because
`window[0] = 0` and only the first chunk touches position 0 (in IEEE float
arithmetic this is NaN; in the exact embedding it is 0 — either way not the
original sample 1, beyond any floating-point tolerance). -/
theorem c1_counterexample :
    onnxSeparate 10 2 (List.replicate 10 1) (fun xs => xs) =
        some [0, 1, 1, 1, 1, 1, 1, 1, 1, 1] ∧
      [(0 : ℚ), 1, 1, 1, 1, 1, 1, 1, 1, 1] ≠ List.replicate 10 1 := by
  constructor
  · simp [onnxSeparate, separateWith, getWindowingArray, borderOf, stepOf, fadeOf,
      numChunks, reflectPadBoth, padTailONNX, resultQ, counterQ, chunkLen, touchedBy,
      windowQ, linspaceQ, Finset.sum_range_succ, List.range_succ]
  · decide

/-- C2 (corrected): in the padded buffer of length `L`, every position
`1 ≤ p < L` is touched by some chunk and has a strictly positive `counter`
(hypotheses `10 ≤ C`, `2 ≤ N ≤ C` make `step ≥ 1`, the fade nonempty, and
`step ≤ C / 2`).  Position 0 is excluded: it is touched by the first chunk
only, with windowing weight `window[0] = 0`, so `counter[0] = 0` exactly and
`result[0] / counter[0]` is a 0/0 division (see `c2_counterexample`) — the
original "strictly positive at every touched position" is false. -/
theorem c2_counter_pos (C N L p : ℕ) (hC : 10 ≤ C) (hN : 2 ≤ N) (hNC : N ≤ C)
    (hp : 1 ≤ p) (hpL : p < L) :
    (∃ k, k < numChunks C N L ∧ touchedBy C N L k p) ∧ 0 < counterQ C N L p := by
  have hs1 : 1 ≤ stepOf C N := step_pos C N (by omega) hNC
  have hs2 : 2 * stepOf C N ≤ C := two_step_le C N hN
  constructor
  · refine ⟨p / stepOf C N, ?_, ?_⟩
    · have hnc : numChunks C N L = (L - 1) / stepOf C N + 1 := by
        unfold numChunks
        have e : L + stepOf C N - 1 = (L - 1) + stepOf C N := by omega
        rw [e, Nat.add_div_right _ (by omega)]
      rw [hnc]
      have := Nat.div_le_div_right (c := stepOf C N) (show p ≤ L - 1 by omega)
      omega
    · have hdm := Nat.div_add_mod p (stepOf C N)
      have hms : p % stepOf C N < stepOf C N := Nat.mod_lt p (by omega)
      unfold touchedBy chunkLen
      have hmul : p / stepOf C N * stepOf C N = stepOf C N * (p / stepOf C N) :=
        Nat.mul_comm _ _
      rw [hmul]
      omega
  · exact counterQ_pos C N L p hC hN hNC hp hpL

theorem c2_counter_pos_witness :
    10 ≤ 10 ∧ 2 ≤ 2 ∧ 2 ≤ 10 ∧ 1 ≤ 1 ∧ 1 < 21 ∧
      ((∃ k, k < numChunks 10 2 21 ∧ touchedBy 10 2 21 k 1) ∧ 0 < counterQ 10 2 21 1) :=
  ⟨by decide, by decide, by decide, by decide, by decide,
    c2_counter_pos 10 2 21 1 (by decide) (by decide) (by decide) (by decide) (by decide)⟩

/-- C2 counterexample: a length-11 all-ones waveform with `C = 10`, `N = 2`
(longer than one chunk would require `len > C`; here the violation already
appears for the padded buffer of any input, and `len = 11 > 10 = C` holds)
is border-padded to `L = 21 = 11 + 2 * border`; position 0 of the padded
buffer is touched by the first chunk, yet `counter[0] = window[0] = 0`, so
the division `result / counter` divides by zero at a touched position. -/
theorem c2_counterexample :
    touchedBy 10 2 21 0 0 ∧ counterQ 10 2 21 0 = 0 ∧
      2 * borderOf 10 2 < 11 ∧ 21 = 11 + 2 * borderOf 10 2 ∧ 10 < 11 := by
  refine ⟨by decide, ?_, by decide, by decide, by decide⟩
  simp [counterQ, numChunks, stepOf, fadeOf, chunkLen, touchedBy, windowQ, linspaceQ,
    Finset.sum_range_succ]

/-- C3 (code_bug): the ONNX chunker pads a short tail chunk by reflection
when the available length exceeds the pad amount and by zeros otherwise,
never raising; but the PyTorch chunker (separator.py line 104) calls
`F.pad(part, (0, C - length), mode='reflect')` unconditionally, which raises
whenever `C - length ≥ length`.  Failing input: `C = 20` with a tail of 5
samples (pad amount 15 ≥ 5).  With `N ≥ 2` the final chunk always has
`length ≤ step ≤ C - step`, so the whole PyTorch pipeline raises on every
input, as the third conjunct shows end-to-end. -/
theorem c3_torch_tail_pad_raises :
    padTailTorch 20 (List.replicate 5 1) = none ∧
      padTailONNX 20 (List.replicate 5 1) =
        some (List.replicate 5 1 ++ List.replicate 15 0) ∧
      torchSeparate 10 2 (List.replicate 11 1) (fun xs => xs) = none := by
  refine ⟨by decide, by decide, by decide⟩

theorem padTailONNX_of_torch (C : ℕ) (xs ys : List ℚ)
    (h : padTailTorch C xs = some ys) : padTailONNX C xs = some ys := by
  unfold padTailTorch at h
  unfold padTailONNX
  split at h
  · rename_i h1
    split at h
    · rename_i h2
      rw [if_pos h1, if_pos h2]
      exact h
    · exact absurd h (by simp)
  · rename_i h1
    rw [if_neg h1]
    exact h

theorem resultQ_congr (C N L : ℕ) (est est' : ℕ → List ℚ) (p : ℕ)
    (h : ∀ k, k < numChunks C N L → est k = est' k) :
    resultQ C N L est p = resultQ C N L est' p := by
  unfold resultQ
  refine Finset.sum_congr rfl ?_
  intro k hk
  split
  · rw [h k (Finset.mem_range.mp hk)]
  · rfl

theorem outMap_congr (pt pt' : ℕ → List ℚ → Option (List ℚ))
    (hmono : ∀ C xs ys, pt C xs = some ys → pt' C xs = some ys)
    (C N : ℕ) (l : List ℚ) (infer : List ℚ → List ℚ)
    (hall : ∀ k, k < numChunks C N l.length →
      (pt C ((l.drop (k * stepOf C N)).take C)).isSome = true) :
    List.map (fun p => resultQ C N l.length
        (fun k => infer ((pt' C ((l.drop (k * stepOf C N)).take C)).getD [])) p /
        counterQ C N l.length p) (List.range l.length) =
      List.map (fun p => resultQ C N l.length
        (fun k => infer ((pt C ((l.drop (k * stepOf C N)).take C)).getD [])) p /
        counterQ C N l.length p) (List.range l.length) := by
  have hfun : ∀ p, resultQ C N l.length
      (fun k => infer ((pt' C ((l.drop (k * stepOf C N)).take C)).getD [])) p =
      resultQ C N l.length
      (fun k => infer ((pt C ((l.drop (k * stepOf C N)).take C)).getD [])) p := by
    intro p
    apply resultQ_congr
    intro k hk
    obtain ⟨ys, hys⟩ := Option.isSome_iff_exists.mp (hall k hk)
    rw [hys, hmono C _ ys hys]
  have hfe : (fun p => resultQ C N l.length
      (fun k => infer ((pt' C ((l.drop (k * stepOf C N)).take C)).getD [])) p /
      counterQ C N l.length p) =
      (fun p => resultQ C N l.length
      (fun k => infer ((pt C ((l.drop (k * stepOf C N)).take C)).getD [])) p /
      counterQ C N l.length p) := by
    funext p
    rw [hfun p]
  rw [hfe]

theorem separateWith_mono (pt pt' : ℕ → List ℚ → Option (List ℚ))
    (hmono : ∀ C xs ys, pt C xs = some ys → pt' C xs = some ys)
    (C N : ℕ) (mix : List ℚ) (infer : List ℚ → List ℚ) (out : List ℚ)
    (h : separateWith pt C N mix infer = some out) :
    separateWith pt' C N mix infer = some out := by
  simp only [separateWith] at h ⊢
  split at h
  · exact absurd h (by simp)
  · rename_i hstep
    rw [if_neg hstep]
    split at h
    · rename_i hwin
      rw [if_pos hwin]
      by_cases hpad : 2 * borderOf C N < mix.length ∧ 0 < borderOf C N
      · simp only [if_pos hpad] at h ⊢
        split at h
        · rename_i hall
          have hall' : ∀ k, k < numChunks C N (reflectPadBoth mix (borderOf C N)).length →
              (pt C (((reflectPadBoth mix (borderOf C N)).drop (k * stepOf C N)).take C)).isSome
                = true := by
            intro k hk
            exact List.all_eq_true.mp hall k (List.mem_range.mpr hk)
          rw [if_pos (List.all_eq_true.mpr fun k hk => by
            obtain ⟨ys, hys⟩ :=
              Option.isSome_iff_exists.mp (hall' k (List.mem_range.mp hk))
            rw [hmono C _ ys hys]
            rfl)]
          rw [outMap_congr pt pt' hmono C N (reflectPadBoth mix (borderOf C N)) infer hall']
          exact h
        · exact absurd h (by simp)
      · simp only [if_neg hpad] at h ⊢
        split at h
        · rename_i hall
          have hall' : ∀ k, k < numChunks C N mix.length →
              (pt C ((mix.drop (k * stepOf C N)).take C)).isSome = true := by
            intro k hk
            exact List.all_eq_true.mp hall k (List.mem_range.mpr hk)
          rw [if_pos (List.all_eq_true.mpr fun k hk => by
            obtain ⟨ys, hys⟩ :=
              Option.isSome_iff_exists.mp (hall' k (List.mem_range.mp hk))
            rw [hmono C _ ys hys]
            rfl)]
          rw [outMap_congr pt pt' hmono C N mix infer hall']
          exact h
        · exact absurd h (by simp)
    · exact absurd h (by simp)

/-- C10 (corrected): the PyTorch overlap-add pipeline refines the ONNX one —
whenever the PyTorch pipeline returns a waveform (every tail chunk long
enough for reflect padding, i.e. `length > C - length`), the ONNX pipeline
returns the identical waveform: same border-padding decision, same chunk
offsets, same (reflect) tail padding, same envelope accumulation,
normalization and border stripping.  The two pipelines are not equal in
general: on a short tail chunk with `C - length ≥ length` the PyTorch
variant raises while the ONNX variant zero-pads and proceeds (see
`c10_counterexample`). -/
theorem c10_torch_refines_onnx (C N : ℕ) (mix : List ℚ) (infer : List ℚ → List ℚ)
    (out : List ℚ) (h : torchSeparate C N mix infer = some out) :
    onnxSeparate C N mix infer = some out :=
  separateWith_mono padTailTorch padTailONNX padTailONNX_of_torch C N mix infer out h

theorem c10_torch_refines_onnx_witness :
    onnxSeparate 10 1 (List.replicate 16 1) (fun xs => xs) =
      some ((torchSeparate 10 1 (List.replicate 16 1) (fun xs => xs)).getD []) := by
  apply c10_torch_refines_onnx
  have hs : (torchSeparate 10 1 (List.replicate 16 1) (fun xs => xs)).isSome = true := by
    decide
  obtain ⟨a, ha⟩ := Option.isSome_iff_exists.mp hs
  rw [ha]
  rfl

/-- C10 counterexample: for `C = 10`, `N = 2` and a length-11 waveform the
two pipelines do not compute the same output: the final chunk has 1 sample
and pad amount 9 ≥ 1, so the PyTorch pipeline raises (none) while the ONNX
pipeline zero-pads and returns a waveform. -/
theorem c10_counterexample :
    torchSeparate 10 2 (List.replicate 11 1) (fun xs => xs) ≠
      onnxSeparate 10 2 (List.replicate 11 1) (fun xs => xs) := by
  have ht : torchSeparate 10 2 (List.replicate 11 1) (fun xs => xs) = none := by decide
  have ho : (onnxSeparate 10 2 (List.replicate 11 1) (fun xs => xs)).isSome = true := by
    decide
  intro heq
  rw [ht] at heq
  rw [← heq] at ho
  exact absurd ho (by decide)

/-!
Backend selection (src/backend/separator.py, `VocalSeparator.__init__`,
lines 41-129), the startup hook and the endpoint gate (src/backend/main.py,
`startup_event` lines 75-117 and `separate_vocals` lines 131-149).
-/

/-- The three estimator adapter variants. -/
inductive BackendKind
  | remoteCuda
  | onnx
  | pytorch
deriving DecidableEq

/-- The configuration and import state read by `__init__`:
whether `REMOTE_CUDA_URL` is set, whether `separator_remote` imported
(`REMOTE_CUDA_AVAILABLE`), the `use_onnx` flag (`USE_ONNX`, default on) and
whether `separator_onnx` imported (`ONNX_AVAILABLE`). -/
structure BackendConfig where
  remoteCudaUrl : Bool
  remoteAvailable : Bool
  useOnnx : Bool
  onnxAvailable : Bool
deriving DecidableEq

/-- `VocalSeparator.__init__`: try remote CUDA (if configured and
importable), catching any constructor exception; then ONNX (if requested
and importable), catching any exception; then the PyTorch fallback, whose
`FileNotFoundError` propagates out of `__init__`.  `remoteOk`, `onnxOk`,
`torchOk` say whether the respective constructor succeeds when attempted. -/
def vocalSeparatorInit (cfg : BackendConfig) (remoteOk onnxOk torchOk : Bool) :
    Except String BackendKind :=
  if cfg.remoteCudaUrl && cfg.remoteAvailable && remoteOk then .ok .remoteCuda
  else if cfg.useOnnx && cfg.onnxAvailable && onnxOk then .ok .onnx
  else if torchOk then .ok .pytorch
  else .error "Model not found"

/-- `startup_event` (main.py lines 75-117): constructs the separator, and on
`FileNotFoundError` or any other exception logs a warning and leaves the
module-level `separator` as `None` — the startup hook itself never raises,
so the process keeps serving its other endpoints. -/
def startupEvent (cfg : BackendConfig) (remoteOk onnxOk torchOk : Bool) :
    Option BackendKind :=
  (vocalSeparatorInit cfg remoteOk onnxOk torchOk).toOption

/-- What `/separate-vocals` does with the separator handle. -/
inductive SepVocalsResponse
  | unavailable503
  | processedBy (b : BackendKind)
deriving DecidableEq

/-- main.py lines 144-149: `if not separator: raise HTTPException(503)`,
otherwise the request is served by the active backend. -/
def separateVocalsGate (sep : Option BackendKind) : SepVocalsResponse :=
  match sep with
  | none => .unavailable503
  | some b => .processedBy b

/-- C4 (confirmed): with a remote URL configured, both optional imports
available and ONNX requested, startup activates exactly the first adapter
whose constructor succeeds, in the fixed order remote → ONNX → PyTorch
(first conjunct; in particular, if the first two constructors raise and the
third succeeds, PyTorch becomes active); when every candidate fails, no
adapter is active and the separation endpoint answers 503 Service
Unavailable instead of letting an error escape — `startupEvent` is a total
function, the startup exception handler keeps the process alive. -/
theorem c4_backend_fallback (remoteOk onnxOk torchOk : Bool) :
    startupEvent ⟨true, true, true, true⟩ remoteOk onnxOk torchOk =
        (if remoteOk then some .remoteCuda
          else if onnxOk then some .onnx
          else if torchOk then some .pytorch
          else none) ∧
      startupEvent ⟨true, true, true, true⟩ false false true = some .pytorch ∧
      startupEvent ⟨true, true, true, true⟩ false false false = none ∧
      separateVocalsGate (startupEvent ⟨true, true, true, true⟩ false false false) =
        .unavailable503 := by
  refine ⟨?_, by decide, by decide, by decide⟩
  cases remoteOk <;> cases onnxOk <;> cases torchOk <;> decide

/-!
Job registry (src/backend/main.py): `JobInfo` (lines 43-62), the registry
dict `active_jobs` (line 65), `cancel_job` (lines 313-330) and `delete_job`
(lines 332-345).  The dict is embedded as a partial map from job ids
(opaque, embedded as ℕ) to records; each endpoint returns the HTTP outcome
together with the registry it leaves behind.
-/

/-- `JobInfo.status` values. -/
inductive JobStatus
  | running
  | completed
  | failed
  | cancelled
deriving DecidableEq

/-- `JobInfo`: job_type, filename, status, progress, error_message and the
`threading.Event` cancellation flag (set or not). -/
structure JobRec where
  jobType : String
  filename : String
  status : JobStatus
  progress : ℕ
  errorMessage : Option String
  cancelEvent : Bool
deriving DecidableEq

/-- `JobInfo.__init__`: status `running`, progress 0, no error message,
cancellation flag clear. -/
def JobRec.new (jobType filename : String) : JobRec :=
  ⟨jobType, filename, .running, 0, none, false⟩

/-- `JobInfo.cancel` (main.py lines 55-58): set the cancellation flag and
transition the status to `cancelled`. -/
def JobRec.cancel (j : JobRec) : JobRec :=
  { j with cancelEvent := true, status := .cancelled }

/-- The `active_jobs` dict. -/
def Registry : Type := ℕ → Option JobRec

/-- `cancel_job` (main.py lines 313-330): 404 when the id is unknown, 400
(`InvalidState`) when the job is not running — in both cases before any
mutation — otherwise `job.cancel()` updates the record in place. -/
def cancelJob (reg : Registry) (jid : ℕ) : Except ℕ Unit × Registry :=
  match reg jid with
  | none => (.error 404, reg)
  | some j =>
    if j.status ≠ .running then (.error 400, reg)
    else (.ok (), fun x => if x = jid then some j.cancel else reg x)

/-- `delete_job` (main.py lines 332-345): 404 when the id is unknown, 400
(`InvalidState`) when the job is still running, otherwise
`del active_jobs[job_id]`. -/
def deleteJob (reg : Registry) (jid : ℕ) : Except ℕ Unit × Registry :=
  match reg jid with
  | none => (.error 404, reg)
  | some j =>
    if j.status = .running then (.error 400, reg)
    else (.ok (), fun x => if x = jid then none else reg x)

/-- C5 (confirmed): for a registered job, cancel while `running` succeeds,
sets the cancellation flag and the `cancelled` status immediately, and a
subsequent delete succeeds and removes the record; cancel on a job whose
status is not `running` (e.g. `completed`) fails with the InvalidState
response 400 and leaves the whole registry unchanged; delete on a running
job is rejected with 400 and also leaves the registry unchanged. -/
theorem c5_cancel_delete (reg : Registry) (jid : ℕ) (j : JobRec)
    (h : reg jid = some j) :
    (j.status = .running →
      (cancelJob reg jid).1 = .ok () ∧
        (cancelJob reg jid).2 jid =
          some { j with status := .cancelled, cancelEvent := true } ∧
        (deleteJob (cancelJob reg jid).2 jid).1 = .ok () ∧
        (deleteJob (cancelJob reg jid).2 jid).2 jid = none ∧
        (deleteJob reg jid).1 = .error 400 ∧ (deleteJob reg jid).2 = reg) ∧
      (j.status ≠ .running →
        (cancelJob reg jid).1 = .error 400 ∧ (cancelJob reg jid).2 = reg) := by
  constructor
  · intro hr
    have hcancel : cancelJob reg jid =
        (.ok (), fun x => if x = jid then some j.cancel else reg x) := by
      simp only [cancelJob, h]
      rw [if_neg (not_not_intro hr)]
    have hlook : (cancelJob reg jid).2 jid = some j.cancel := by
      rw [hcancel]
      simp
    have hdel : deleteJob (cancelJob reg jid).2 jid =
        (.ok (), fun x => if x = jid then none else (cancelJob reg jid).2 x) := by
      simp only [deleteJob, hlook]
      rw [if_neg (by simp [JobRec.cancel])]
    refine ⟨by rw [hcancel], by rw [hlook]; rfl, by rw [hdel], by rw [hdel]; simp, ?_, ?_⟩
    · simp only [deleteJob, h]
      rw [if_pos hr]
    · simp only [deleteJob, h]
      rw [if_pos hr]
  · intro hnr
    have hc : cancelJob reg jid = (.error 400, reg) := by
      simp only [cancelJob, h]
      rw [if_pos hnr]
    exact ⟨by rw [hc], by rw [hc]⟩

/-- A two-job registry for the C5 witness: job 1 running, job 2 completed. -/
def sampleRegistry : Registry := fun x =>
  if x = 1 then some (JobRec.new "vocal_separation" "a.mp3")
  else if x = 2 then some { JobRec.new "youtube" "b.mp3" with status := .completed }
  else none

theorem c5_cancel_delete_witness :
    (cancelJob sampleRegistry 1).1 = .ok () ∧
      (cancelJob sampleRegistry 1).2 1 =
        some { JobRec.new "vocal_separation" "a.mp3" with
          status := .cancelled, cancelEvent := true } ∧
      (deleteJob (cancelJob sampleRegistry 1).2 1).1 = .ok () ∧
      (deleteJob (cancelJob sampleRegistry 1).2 1).2 1 = none ∧
      (cancelJob sampleRegistry 2).1 = .error 400 ∧
      (cancelJob sampleRegistry 2).2 = sampleRegistry := by
  have h1 := (c5_cancel_delete sampleRegistry 1 (JobRec.new "vocal_separation" "a.mp3")
    rfl).1 rfl
  have h2 := (c5_cancel_delete sampleRegistry 2
    { JobRec.new "youtube" "b.mp3" with status := .completed } rfl).2 (by decide)
  exact ⟨h1.1, h1.2.1, h1.2.2.1, h1.2.2.2.1, h2.1, h2.2⟩

/-!
Job-record mutations of the separation endpoint (`separate_vocals`,
main.py lines 131-254) with a `cancel_job` request interleaved at an
arbitrary point.  The endpoint's writes to its job record, in program
order: cancellation checkpoint (line 168), `job.progress = 10` (line 186),
checkpoint (line 189), checkpoint (line 198), `job.progress = 80`
(line 207), `job.progress = 100` (line 219), `job.status = 'completed'`
(line 220).  A checkpoint that observes the cancellation flag raises
`HTTPException(499)`, whose handler (lines 242-246) assigns
`job.status = 'cancelled'` and `job.error_message = 'Job cancelled'` and
ends the operation.
-/

/-- One job-record access of the endpoint code. -/
inductive OpStep
  | checkpoint
  | setProgress (n : ℕ)
  | setCompleted
deriving DecidableEq

/-- The access sequence of `separate_vocals` (see the section comment). -/
def separationSteps : List OpStep :=
  [.checkpoint, .setProgress 10, .checkpoint, .checkpoint, .setProgress 80,
    .setProgress 100, .setCompleted]

/-- Runs the remaining steps against job record `j`, emitting every state
the record passes through.  `cancelAt` counts the steps until the external
`cancel_job` request lands (it mutates only a `running` record, exactly as
`cancel_job` checks; `cancelAt` at or beyond the number of remaining steps
means no cancellation arrives). -/
def runSteps : List OpStep → ℕ → JobRec → List JobRec
  | [], _, _ => []
  | step :: rest, c, j =>
    let jc := if c = 0 ∧ j.status = .running then j.cancel else j
    let pre := if c = 0 ∧ j.status = .running then [jc] else []
    match step with
    | .checkpoint =>
      if jc.cancelEvent then
        pre ++ [{ jc with status := .cancelled, errorMessage := some "Job cancelled" }]
      else
        pre ++ runSteps rest (c - 1) jc
    | .setProgress n =>
      pre ++ ({ jc with progress := n } :: runSteps rest (c - 1) { jc with progress := n })
    | .setCompleted =>
      pre ++ ({ jc with status := .completed } ::
        runSteps rest (c - 1) { jc with status := .completed })

/-- The full state history of a separation job when `cancel_job` lands just
before step `cancelAt`: the freshly created record followed by every state
the endpoint and the cancellation write produce. -/
def separationTrace (cancelAt : ℕ) (jt fn : String) : List JobRec :=
  JobRec.new jt fn :: runSteps separationSteps cancelAt (JobRec.new jt fn)

theorem runSteps_high (steps : List OpStep) (c : ℕ) (j : JobRec)
    (hc : steps.length ≤ c) : runSteps steps c j = runSteps steps steps.length j := by
  induction steps generalizing c j with
  | nil => rfl
  | cons step rest ih =>
    have hc0 : ¬(c = 0 ∧ j.status = .running) := by
      simp only [List.length_cons] at hc
      intro hx
      omega
    have hc0' : ¬(rest.length + 1 = 0 ∧ j.status = .running) := by
      intro hx
      omega
    have e : rest.length ≤ c - 1 := by
      simp only [List.length_cons] at hc
      omega
    have e2 : rest.length + 1 - 1 = rest.length := by omega
    cases step with
    | checkpoint =>
      simp only [runSteps, List.length_cons, if_neg hc0, if_neg hc0', List.nil_append]
      split
      · rfl
      · rw [e2, ih _ _ e]
    | setProgress n =>
      simp only [runSteps, List.length_cons, if_neg hc0, if_neg hc0', List.nil_append]
      rw [e2, ih _ _ e]
    | setCompleted =>
      simp only [runSteps, List.length_cons, if_neg hc0, if_neg hc0', List.nil_append]
      rw [e2, ih _ _ e]

/-- C7 (corrected): along every interleaving of one cancellation request
with the separation endpoint (any `cancelAt`), the job's integer progress
is monotonically non-decreasing and stays within 0–100, and once the status
reaches `completed` the record is never mutated again.  The original
claim's "no mutation after any terminal status" fails for `cancelled`: the
cancellation request makes the status terminal immediately while the
endpoint is still executing, and the endpoint then still writes the record
— see `c7_counterexample`. -/
theorem c7_progress_monotone (cancelAt : ℕ) (jt fn : String) :
    List.Chain' (fun a b => a.progress ≤ b.progress) (separationTrace cancelAt jt fn) ∧
      (∀ j ∈ separationTrace cancelAt jt fn, j.progress ≤ 100) ∧
      List.Chain' (fun a b => a.status = .completed → b = a)
        (separationTrace cancelAt jt fn) := by
  have hred : separationTrace cancelAt jt fn =
      separationTrace (min cancelAt 7) jt fn := by
    unfold separationTrace
    rcases Nat.lt_or_ge cancelAt 7 with h | h
    · rw [Nat.min_eq_left (by omega)]
    · rw [Nat.min_eq_right (by omega),
        runSteps_high separationSteps cancelAt _ (by simp [separationSteps]; omega),
        show separationSteps.length = 7 from rfl]
  rw [hred]
  have hm : min cancelAt 7 ≤ 7 := Nat.min_le_right _ _
  interval_cases h : min cancelAt 7 <;>
    refine ⟨?_, ?_, ?_⟩ <;>
      simp [separationTrace, runSteps, separationSteps, JobRec.new, JobRec.cancel,
        List.chain'_cons]

/-- C7 counterexample: when the cancellation request lands after the first
checkpoint (`cancelAt = 1`), the record reaches the terminal status
`cancelled` at trace index 1, yet the still-executing endpoint mutates it
twice more: the unguarded `job.progress = 10` write (main.py line 186) and
the 499-handler's `job.error_message` write (line 245). -/
theorem c7_counterexample :
    separationTrace 1 "vocal_separation" "song.mp3" =
        [⟨"vocal_separation", "song.mp3", .running, 0, none, false⟩,
          ⟨"vocal_separation", "song.mp3", .cancelled, 0, none, true⟩,
          ⟨"vocal_separation", "song.mp3", .cancelled, 10, none, true⟩,
          ⟨"vocal_separation", "song.mp3", .cancelled, 10, some "Job cancelled", true⟩] ∧
      ((separationTrace 1 "vocal_separation" "song.mp3")[1]?.map JobRec.status =
        some .cancelled) ∧
      (separationTrace 1 "vocal_separation" "song.mp3")[2]? ≠
        (separationTrace 1 "vocal_separation" "song.mp3")[1]? ∧
      (separationTrace 1 "vocal_separation" "song.mp3")[3]? ≠
        (separationTrace 1 "vocal_separation" "song.mp3")[2]? := by
  refine ⟨by decide, by decide, by decide, by decide⟩

/-!
Remote CUDA adapter (src/backend/separator_remote.py,
`RemoteCUDAVocalSeparator`): construction (lines 45-61) and inference
(lines 63-108).
-/

/-- The client state stored by `__init__` (the source also
`rstrip`s a trailing slash from the URL — plain string normalization,
omitted here). -/
structure RemoteClient where
  remoteUrl : String
  timeout : ℕ
deriving DecidableEq

/-- Construction failure: the only raise in `__init__` is the `ImportError`
for a missing httpx. -/
inductive RemoteCtorError
  | importError
deriving DecidableEq

/-- Runtime inference failure: a connection error/timeout from httpx, or
the `Exception("Remote separation failed: …")` raised for a non-200
response.  A separate type from `RemoteCtorError`: construction failures
and runtime inference failures are distinguishable. -/
inductive RemoteRunError
  | connectError
  | badStatus (code : ℕ)
deriving DecidableEq

/-- What the peer answers to the inference POST. -/
structure HttpResponse where
  status : ℕ
  vocalsUrl : String
  instrumentalUrl : String
  sampleRate : Option ℕ
deriving DecidableEq

/-- `RemoteCUDAVocalSeparator.__init__` (lines 45-61): raises `ImportError`
when httpx is missing, otherwise stores the URL and timeout (default 600 s)
and returns.  It performs no network I/O: the network is not among its
inputs, so an unreachable endpoint cannot make construction fail. -/
def remoteInit (httpxAvailable : Bool) (remoteUrl : String) (timeout : ℕ) :
    Except RemoteCtorError RemoteClient :=
  if httpxAvailable then .ok ⟨remoteUrl, timeout⟩ else .error .importError

/-- `RemoteCUDAVocalSeparator.separate` (lines 63-108): POSTs the audio to
`{remote_url}/separate-vocals-cuda` inside `httpx.Client(timeout=self.timeout)`
— `post` is the network, receiving the target URL and the timeout actually
applied to the request; `none` models a raised connection/timeout error.
A non-200 response raises; on 200 the stem URLs are taken from the JSON
body and the sample rate defaults to 44100 (`result.get('sample_rate',
44100)`).  The two follow-up stem downloads are represented by the returned
URLs. -/
def remoteSeparate (c : RemoteClient) (post : String → ℕ → Option HttpResponse) :
    Except RemoteRunError (String × String × ℕ) :=
  match post (c.remoteUrl ++ "/separate-vocals-cuda") c.timeout with
  | none => .error .connectError
  | some r =>
    if r.status ≠ 200 then .error (.badStatus r.status)
    else .ok (r.vocalsUrl, r.instrumentalUrl, r.sampleRate.getD 44100)

/-- C8 (corrected): construction of the Remote adapter does not contact the
endpoint — it succeeds whenever the HTTP client library is importable,
unreachable endpoint or not, and its only failure (`ImportError`) is a
different type from every runtime inference failure, so the two are
distinguishable.  During inference, a connection failure fails with the
runtime connection error, a non-success response fails with the runtime
bad-status error, and the request is issued with the client's configured
timeout (`post` receives `c.timeout`; the conclusion depends on the network
only through its response at that timeout). -/
theorem c8_remote_behaviour (url : String) (t : ℕ)
    (post : String → ℕ → Option HttpResponse) :
    remoteInit true url t = .ok ⟨url, t⟩ ∧
      remoteInit false url t = .error .importError ∧
      (post (url ++ "/separate-vocals-cuda") t = none →
        remoteSeparate ⟨url, t⟩ post = .error .connectError) ∧
      (∀ r, post (url ++ "/separate-vocals-cuda") t = some r → r.status ≠ 200 →
        remoteSeparate ⟨url, t⟩ post = .error (.badStatus r.status)) ∧
      (∀ r, post (url ++ "/separate-vocals-cuda") t = some r → r.status = 200 →
        remoteSeparate ⟨url, t⟩ post =
          .ok (r.vocalsUrl, r.instrumentalUrl, r.sampleRate.getD 44100)) := by
  refine ⟨rfl, rfl, ?_, ?_, ?_⟩
  · intro hpost
    unfold remoteSeparate
    rw [hpost]
  · intro r hpost hstatus
    unfold remoteSeparate
    rw [hpost]
    simp only [if_pos hstatus]
  · intro r hpost hstatus
    unfold remoteSeparate
    rw [hpost]
    simp only [if_neg (not_not_intro hstatus)]

theorem c8_remote_behaviour_witness :
    remoteSeparate ⟨"http://gpu-server:8001", 600⟩
        (fun _ _ => some ⟨200, "/download/v.wav", "/download/i.wav", some 44100⟩) =
        .ok ("/download/v.wav", "/download/i.wav", 44100) ∧
      remoteSeparate ⟨"http://gpu-server:8001", 600⟩ (fun _ _ => none) =
        .error .connectError :=
  ⟨((c8_remote_behaviour "http://gpu-server:8001" 600
      (fun _ _ => some ⟨200, "/download/v.wav", "/download/i.wav", some 44100⟩)).2.2.2.2)
      ⟨200, "/download/v.wav", "/download/i.wav", some 44100⟩ rfl rfl,
    ((c8_remote_behaviour "http://gpu-server:8001" 600 (fun _ _ => none)).2.2.1) rfl⟩

/-- C8 counterexample: construction with an unreachable endpoint does not
fail — `__init__` (separator_remote.py lines 45-61) performs no network
access at all (the network is not an input of `remoteInit`), so it returns
a client for any URL whatsoever; the claim's "construction fails when the
remote endpoint is unreachable" is false. -/
theorem c8_counterexample :
    remoteInit true "http://unreachable.invalid:8001" 600 =
      .ok ⟨"http://unreachable.invalid:8001", 600⟩ := rfl

theorem c4_backend_fallback_witness :
    startupEvent ⟨true, true, true, true⟩ false false true =
        (if false then some .remoteCuda
          else if false then some .onnx
          else if true then some .pytorch
          else none) ∧
      startupEvent ⟨true, true, true, true⟩ false false true = some .pytorch ∧
      startupEvent ⟨true, true, true, true⟩ false false false = none ∧
      separateVocalsGate (startupEvent ⟨true, true, true, true⟩ false false false) =
        .unavailable503 :=
  c4_backend_fallback false false true

theorem c7_progress_monotone_witness :
    List.Chain' (fun a b => a.progress ≤ b.progress)
        (separationTrace 1 "vocal_separation" "tune.mp3") ∧
      (∀ j ∈ separationTrace 1 "vocal_separation" "tune.mp3", j.progress ≤ 100) ∧
      List.Chain' (fun a b => a.status = .completed → b = a)
        (separationTrace 1 "vocal_separation" "tune.mp3") :=
  c7_progress_monotone 1 "vocal_separation" "tune.mp3"
